import Mathlib

/-!
Shallow embedding of the data-validation library in `src/Task8/validator.py`
(classes `ValidationResult`, `BaseValidator`, `StringValidator`,
`NumberValidator`, `BooleanValidator`, `DateValidator`, `ArrayValidator`,
`ObjectValidator`, `Schema`), together with theorems settling the claims
about it.  Python's mutable `ValidationResult` accumulator is rendered by
explicit state passing; every other translation choice is documented on the
definition it concerns.
-/

namespace Task8

/-- Python runtime values, as far as the validators inspect them.
The `datetime` constructor stands for an instance of `datetime.datetime`: the
validators test its type but never read its payload, so the payload is
omitted.  Python floats are modelled as rationals; no claim depends on
IEEE-754 rounding.  A `dict` is its ordered association list of entries
(keys unique, insertion order). -/
inductive Value where
  | none
  | bool (b : Bool)
  | int (n : Int)
  | float (q : Rat)
  | str (s : String)
  | list (items : List Value)
  | dict (entries : List (String × Value))
  | datetime

/-- A constraint bound of Python type `Union[int, float]`. -/
inductive PyNum where
  | int (n : Int)
  | float (q : Rat)
deriving Repr, DecidableEq

/-- Numeric value of a bound, for `<` / `>` comparisons. -/
def PyNum.toRat : PyNum → Rat
  | .int n => (n : Rat)
  | .float q => q

/-- Python's `str()` of a bound, as interpolated into f-string error
messages.  An `int` bound prints as the integer.  A `float` bound prints as a
decimal; that shortest-round-trip rendering is reproduced here only for
integral floats — no claim exercises a non-integral float bound. -/
def PyNum.render : PyNum → String
  | .int n => toString n
  | .float q => if q.den = 1 then toString q.num ++ ".0" else toString q

/-- Numeric value of a Python number.  In Python `bool` is a subclass of
`int` backed by 0 and 1, so a boolean that reaches a numeric comparison
compares as its integer value.  The catch-all case is never reached by the
validators: they compare only values that passed `isinstance(v, (int, float))`. -/
def Value.toRat : Value → Rat
  | .bool b => if b then 1 else 0
  | .int n => (n : Rat)
  | .float q => q
  | _ => 0

/-- Python `isinstance(v, str)`. -/
def isinstance_str : Value → Bool
  | .str _ => true
  | _ => false

/-- Python `isinstance(v, bool)`. -/
def isinstance_bool : Value → Bool
  | .bool _ => true
  | _ => false

/-- Python `isinstance(v, (int, float))`.  `bool` is a subclass of `int` in
Python, so a boolean satisfies this check — the type check of
`NumberValidator.validate` (validator.py line 163) therefore accepts
booleans. -/
def isinstance_int_or_float : Value → Bool
  | .bool _ => true
  | .int _ => true
  | .float _ => true
  | _ => false

/-- Python `isinstance(v, int)` — also satisfied by booleans. -/
def isinstance_int : Value → Bool
  | .bool _ => true
  | .int _ => true
  | _ => false

/-- Python `isinstance(v, list)`. -/
def isinstance_list : Value → Bool
  | .list _ => true
  | _ => false

/-- Python `isinstance(v, dict)`. -/
def isinstance_dict : Value → Bool
  | .dict _ => true
  | _ => false

/-- Python `isinstance(v, datetime)`. -/
def isinstance_datetime : Value → Bool
  | .datetime => true
  | _ => false

/-- Class `ValidationResult`: overall pass/fail flag plus the ordered list of
error strings.  `ValidationResult()` is `⟨true, []⟩`. -/
structure ValidationResult where
  is_valid : Bool := true
  errors : List String := []
deriving Repr, DecidableEq

/-- Method `ValidationResult.add_error`: append the error and flip the flag
to `False` in the same step. -/
def ValidationResult.add_error (r : ValidationResult) (error : String) : ValidationResult :=
  { is_valid := false, errors := r.errors ++ [error] }

/-- A sequence of `add_error` calls, one per listed error, as performed by
the straight-line constraint checks of the scalar validators. -/
def ValidationResult.add_all (r : ValidationResult) (errs : List String) : ValidationResult :=
  errs.foldl ValidationResult.add_error r

mutual
/-- One validator node.  The variants carry exactly the configuration state
of the corresponding Python classes: the shared `_optional` flag and
`_custom_message` from `BaseValidator`, then the per-variant constraint
fields (`StringValidator._min_length`, `_max_length`, `_pattern`;
`NumberValidator._min_value`, `_max_value`, `_integer_only`;
`DateValidator._date_format`; `ArrayValidator.item_validator`,
`_min_length`, `_max_length`; `ObjectValidator.schema`, `_strict`).
A compiled regex is modelled by its exact-match language, a decidable set of
strings `String → Bool`. -/
inductive Validator where
  | string (opt : Bool) (msg : Option String) (min_len max_len : Option Int)
      (pat : Option (String → Bool))
  | number (opt : Bool) (msg : Option String) (min_val max_val : Option PyNum)
      (int_only : Bool)
  | boolean (opt : Bool) (msg : Option String)
  | date (opt : Bool) (msg : Option String) (fmt : String)
  | array (opt : Bool) (msg : Option String) (item : Validator)
      (min_len max_len : Option Int)
  | object (opt : Bool) (msg : Option String) (schema : Fields) (strict : Bool)
/-- The `Dict[str, BaseValidator]` schema of an object validator, kept in
declaration (insertion) order, as Python dicts iterate it. -/
inductive Fields where
  | nil
  | cons (name : String) (v : Validator) (rest : Fields)
end

/-- The shared `_optional` attribute of a node. -/
def Validator.optional_flag : Validator → Bool
  | .string o _ _ _ _ => o
  | .number o _ _ _ _ => o
  | .boolean o _ => o
  | .date o _ _ => o
  | .array o _ _ _ _ => o
  | .object o _ _ _ => o

/-- The shared `_custom_message` attribute of a node. -/
def Validator.custom_message : Validator → Option String
  | .string _ m _ _ _ => m
  | .number _ m _ _ _ => m
  | .boolean _ m => m
  | .date _ m _ => m
  | .array _ m _ _ _ => m
  | .object _ m _ _ => m

/-- Fluent method `BaseValidator.optional()`. -/
def Validator.optional : Validator → Validator
  | .string _ m a b p => .string true m a b p
  | .number _ m a b i => .number true m a b i
  | .boolean _ m => .boolean true m
  | .date _ m f => .date true m f
  | .array _ m it a b => .array true m it a b
  | .object _ m s st => .object true m s st

/-- Fluent method `BaseValidator.with_message(message)`. -/
def Validator.with_message : Validator → String → Validator
  | .string o _ a b p, m => .string o (some m) a b p
  | .number o _ a b i, m => .number o (some m) a b i
  | .boolean o _, m => .boolean o (some m)
  | .date o _ f, m => .date o (some m) f
  | .array o _ it a b, m => .array o (some m) it a b
  | .object o _ s st, m => .object o (some m) s st

/-- Fluent methods `StringValidator.min_length` and
`ArrayValidator.min_length`.  The source defines this method only on those
two classes; on the other variants this embedding is the identity and is
never applied. -/
def Validator.min_length : Validator → Int → Validator
  | .string o m _ mx p, n => .string o m (some n) mx p
  | .array o m it _ mx, n => .array o m it (some n) mx
  | v, _ => v

/-- Fluent methods `StringValidator.max_length` and
`ArrayValidator.max_length` (identity on the other variants, as above). -/
def Validator.max_length : Validator → Int → Validator
  | .string o m mn _ p, n => .string o m mn (some n) p
  | .array o m it mn _, n => .array o m it mn (some n)
  | v, _ => v

/-- Fluent method `StringValidator.pattern(regex)`: stores the compiled
pattern, modelled by its exact-match language. -/
def Validator.pattern : Validator → (String → Bool) → Validator
  | .string o m mn mx _, p => .string o m mn mx (some p)
  | v, _ => v

/-- Fluent method `NumberValidator.min_value`. -/
def Validator.min_value : Validator → PyNum → Validator
  | .number o m _ mx i, b => .number o m (some b) mx i
  | v, _ => v

/-- Fluent method `NumberValidator.max_value`. -/
def Validator.max_value : Validator → PyNum → Validator
  | .number o m mn _ i, b => .number o m mn (some b) i
  | v, _ => v

/-- Fluent method `NumberValidator.integer()`. -/
def Validator.integer : Validator → Validator
  | .number o m mn mx _ => .number o m mn mx true
  | v => v

/-- Fluent method `ObjectValidator.strict()`. -/
def Validator.strict : Validator → Validator
  | .object o m s _ => .object o m s true
  | v => v

/-- Factory `Schema.string()`. -/
def Schema.string : Validator := .string false Option.none Option.none Option.none Option.none

/-- Factory `Schema.number()`. -/
def Schema.number : Validator := .number false Option.none Option.none Option.none false

/-- Factory `Schema.boolean()`. -/
def Schema.boolean : Validator := .boolean false Option.none

/-- Factory `Schema.date()` with the default format string. -/
def Schema.date : Validator := .date false Option.none "%Y-%m-%d"

/-- Factory `Schema.array(item_validator)`. -/
def Schema.array (item : Validator) : Validator :=
  .array false Option.none item Option.none Option.none

/-- Factory `Schema.object(schema)`. -/
def Schema.object (schema : Fields) : Validator :=
  .object false Option.none schema false

/-- Method `BaseValidator._create_error`: the Python expression
`self._custom_message or message` picks the custom message only when it is
truthy — `None` and the empty string both fall back to the default text —
then the field path is prepended when it is non-empty. -/
def create_error (custom_message : Option String) (message field_path : String) : String :=
  let error_msg := match custom_message with
    | some cm => if cm = "" then message else cm
    | Option.none => message
  if field_path = "" then error_msg else field_path ++ ": " ++ error_msg

/-- Object-field path composition
`f"{field_path}.{field_name}" if field_path else field_name`. -/
def field_path_of (field_path field_name : String) : String :=
  if field_path = "" then field_name else field_path ++ "." ++ field_name

/-- Array-item path composition
`f"{field_path}[{i}]" if field_path else f"[{i}]"`. -/
def item_path_of (field_path : String) (i : Nat) : String :=
  if field_path = "" then "[" ++ toString i ++ "]"
  else field_path ++ "[" ++ toString i ++ "]"

/-- Python `re.Pattern.match(s)` is truthy iff the regex matches at the
START of `s`, not necessarily all of it: with the compiled pattern modelled
by its exact-match language `pat`, the call succeeds iff some prefix of `s`
belongs to the language. -/
def re_match (pat : String → Bool) (s : String) : Bool :=
  (List.range (s.length + 1)).any fun i => pat (s.take i)

/-- Python `dict.get(name)`: the first stored value for the key, or `None`
when the key is absent. -/
def dict_get (entries : List (String × Value)) (name : String) : Value :=
  match entries.find? (fun e => e.1 == name) with
  | some e => e.2
  | Option.none => Value.none

/-- The declared field names of an object schema, in declaration order. -/
def Fields.keys : Fields → List String
  | .nil => []
  | .cons name _ rest => name :: rest.keys

/-- The strict-mode computation `set(value.keys()) - set(self.schema.keys())`:
the input keys not declared in the schema.  Python iterates that set in
unspecified (hash-based) order; this embedding fixes the input insertion
order.  No claim depends on the relative order among the extra keys, and
dict keys are unique, so the set and the filtered list carry the same
keys. -/
def extra_fields (schema : Fields) (entries : List (String × Value)) : List String :=
  (entries.map Prod.fst).filter fun k => !(schema.keys.contains k)

/-- The absence-handling block that opens every `validate` in the source:
`if value is None: return result if optional else add "Field is required"`. -/
def absent_result (opt : Bool) (msg : Option String) (field_path : String) : ValidationResult :=
  if opt then ⟨true, []⟩
  else ValidationResult.add_error ⟨true, []⟩ (create_error msg "Field is required" field_path)

/-- The constraint errors `StringValidator.validate` adds after the type
check has passed: minimum length, then maximum length, then pattern, in
source order (validator.py lines 106-122). -/
def string_own_errors (msg : Option String) (min_len max_len : Option Int)
    (pat : Option (String → Bool)) (s : String) (field_path : String) : List String :=
  (match min_len with
   | some n =>
     if (s.length : Int) < n then
       [create_error msg ("String must be at least " ++ toString n ++ " characters long") field_path]
     else []
   | Option.none => []) ++
  (match max_len with
   | some n =>
     if (s.length : Int) > n then
       [create_error msg ("String must be at most " ++ toString n ++ " characters long") field_path]
     else []
   | Option.none => []) ++
  (match pat with
   | some p =>
     if !(re_match p s) then
       [create_error msg "String does not match required pattern" field_path]
     else []
   | Option.none => [])

/-- The constraint errors `NumberValidator.validate` adds after the type
check has passed: integer-only, then minimum, then maximum, in source order
(validator.py lines 167-181). -/
def number_own_errors (msg : Option String) (min_val max_val : Option PyNum)
    (int_only : Bool) (v : Value) (field_path : String) : List String :=
  (if int_only && !(isinstance_int v) then
     [create_error msg "Must be an integer" field_path]
   else []) ++
  (match min_val with
   | some b =>
     if v.toRat < b.toRat then
       [create_error msg ("Number must be at least " ++ b.render) field_path]
     else []
   | Option.none => []) ++
  (match max_val with
   | some b =>
     if v.toRat > b.toRat then
       [create_error msg ("Number must be at most " ++ b.render) field_path]
     else []
   | Option.none => [])

/-- The length-constraint errors `ArrayValidator.validate` adds after the
type check has passed (validator.py lines 284-294), for an array of `n`
items. -/
def array_length_errors (msg : Option String) (min_len max_len : Option Int)
    (n : Nat) (field_path : String) : List String :=
  (match min_len with
   | some m =>
     if (n : Int) < m then
       [create_error msg ("Array must have at least " ++ toString m ++ " items") field_path]
     else []
   | Option.none => []) ++
  (match max_len with
   | some m =>
     if (n : Int) > m then
       [create_error msg ("Array must have at most " ++ toString m ++ " items") field_path]
     else []
   | Option.none => [])

/-- The aggregation idiom of the array and object validators: when the child
result is invalid, extend the accumulated errors with the child's errors and
force the flag to `False`; when the child result is valid, leave the
accumulator unchanged (validator.py lines 300-302 and 352-354). -/
def merge_child (r child : ValidationResult) : ValidationResult :=
  if !child.is_valid then { is_valid := false, errors := r.errors ++ child.errors }
  else r

/-- The `for i, item in enumerate(value)` loop of `ArrayValidator.validate`,
with the per-item validation supplied as `f`. -/
def run_items (f : Value → String → ValidationResult) :
    List Value → String → Nat → ValidationResult → ValidationResult
  | [], _, _, r => r
  | x :: xs, field_path, i, r =>
      run_items f xs field_path (i + 1) (merge_child r (f x (item_path_of field_path i)))

mutual
/-- Method `validate(value, field_path)` of each validator class, translated
arm by arm from the source: absence handling first, then the type check,
then the variant's constraint checks, and for the two container variants the
recursive child validation with path composition and error aggregation.
`strptime value fmt` stands for `datetime.strptime(value, fmt)` succeeding
(the library leaves date parsing to the host runtime, so the parser is a
parameter of the embedding). -/
def validate (strptime : String → String → Bool) :
    Validator → Value → String → ValidationResult
  | .string opt msg mn mx pat, value, field_path =>
    match value with
    | Value.none => absent_result opt msg field_path
    | .str s =>
      ValidationResult.add_all ⟨true, []⟩ (string_own_errors msg mn mx pat s field_path)
    | _ =>
      ValidationResult.add_error ⟨true, []⟩ (create_error msg "Must be a string" field_path)
  | .number opt msg mn mx int_only, value, field_path =>
    match value with
    | Value.none => absent_result opt msg field_path
    | v =>
      if !(isinstance_int_or_float v) then
        ValidationResult.add_error ⟨true, []⟩ (create_error msg "Must be a number" field_path)
      else
        ValidationResult.add_all ⟨true, []⟩ (number_own_errors msg mn mx int_only v field_path)
  | .boolean opt msg, value, field_path =>
    match value with
    | Value.none => absent_result opt msg field_path
    | v =>
      if !(isinstance_bool v) then
        ValidationResult.add_error ⟨true, []⟩ (create_error msg "Must be a boolean" field_path)
      else ⟨true, []⟩
  | .date opt msg fmt, value, field_path =>
    match value with
    | Value.none => absent_result opt msg field_path
    | .datetime => ⟨true, []⟩
    | .str s =>
      if strptime s fmt then ⟨true, []⟩
      else
        ValidationResult.add_error ⟨true, []⟩
          (create_error msg ("Date must be in format " ++ fmt) field_path)
    | _ =>
      ValidationResult.add_error ⟨true, []⟩
        (create_error msg "Must be a date or datetime string" field_path)
  | .array opt msg item mn mx, value, field_path =>
    match value with
    | Value.none => absent_result opt msg field_path
    | .list items =>
      run_items (fun x p => validate strptime item x p) items field_path 0
        (ValidationResult.add_all ⟨true, []⟩
          (array_length_errors msg mn mx items.length field_path))
    | _ =>
      ValidationResult.add_error ⟨true, []⟩ (create_error msg "Must be an array" field_path)
  | .object opt msg schema strict, value, field_path =>
    match value with
    | Value.none => absent_result opt msg field_path
    | .dict entries =>
      validate_fields strptime schema entries field_path
        (if strict then
          ValidationResult.add_all ⟨true, []⟩
            ((extra_fields schema entries).map fun k =>
              create_error msg "Extra field not allowed in strict mode" (field_path_of field_path k))
        else ⟨true, []⟩)
    | _ =>
      ValidationResult.add_error ⟨true, []⟩ (create_error msg "Must be an object" field_path)
/-- The `for field_name, field_validator in self.schema.items()` loop of
`ObjectValidator.validate`: fetch each declared field with `dict.get`
(absent keys become `None`), validate it under the composed path, and merge
the child result. -/
def validate_fields (strptime : String → String → Bool) :
    Fields → List (String × Value) → String → ValidationResult → ValidationResult
  | .nil, _, _, r => r
  | .cons name fv rest, entries, field_path, r =>
      validate_fields strptime rest entries field_path
        (merge_child r (validate strptime fv (dict_get entries name) (field_path_of field_path name)))
end

/-- The per-item error lists the array loop produces, in index order: for
each element, the errors of validating it against the item validator at the
composed path.  `run_items` is proved below to append exactly this list. -/
def items_errors (f : Value → String → ValidationResult) :
    List Value → String → Nat → List String
  | [], _, _ => []
  | x :: xs, field_path, i =>
      (f x (item_path_of field_path i)).errors ++ items_errors f xs field_path (i + 1)

/-- The per-field error lists the object loop produces, in schema
declaration order.  `validate_fields` is proved below to append exactly this
list. -/
def fields_errors (strptime : String → String → Bool) :
    Fields → List (String × Value) → String → List String
  | .nil, _, _ => []
  | .cons name fv rest, entries, field_path =>
      (validate strptime fv (dict_get entries name) (field_path_of field_path name)).errors
        ++ fields_errors strptime rest entries field_path

/-- The strict-mode extra-field errors of an object validator: one per extra
key, at the composed path; empty when strict mode is off. -/
def strict_errors (msg : Option String) (schema : Fields)
    (entries : List (String × Value)) (strict : Bool) (field_path : String) : List String :=
  if strict then
    (extra_fields schema entries).map fun k =>
      create_error msg "Extra field not allowed in strict mode" (field_path_of field_path k)
  else []

/-- The errors contributed by a node's nested child validators: the item
errors of an array applied to a list, the declared-field errors of an object
applied to a dict, and nothing in every other situation. -/
def child_errors (strptime : String → String → Bool) :
    Validator → Value → String → List String
  | .array _ _ item _ _, .list items, field_path =>
      items_errors (fun x p => validate strptime item x p) items field_path 0
  | .object _ _ schema _, .dict entries, field_path =>
      fields_errors strptime schema entries field_path
  | _, _, _ => []

/-- The exact-match language of the five-digit regex used by the spec
scenarios (a backslash-d repeated five times, unanchored): exactly five
ASCII digits. -/
def digits5 : String → Bool := fun s => s.length == 5 && s.data.all Char.isDigit

/-- The schema of the C4 path-composition scenario. -/
def c4_schema : Validator :=
  Schema.object (.cons "a" (Schema.object (.cons "b" (Schema.array Schema.number) .nil)) .nil)

/-- The input of the C4 path-composition scenario. -/
def c4_value : Value :=
  .dict [("a", .dict [("b", .list [.int 1, .str "x"])])]

theorem list_isEmpty_append {α : Type} (l₁ l₂ : List α) :
    (l₁ ++ l₂).isEmpty = (l₁.isEmpty && l₂.isEmpty) := by
  cases l₁ <;> simp

theorem add_all_spec (errs : List String) (r : ValidationResult) :
    r.add_all errs = ⟨r.is_valid && errs.isEmpty, r.errors ++ errs⟩ := by
  induction errs generalizing r with
  | nil => simp [ValidationResult.add_all]
  | cons e es ih =>
      have h : r.add_all (e :: es) = (r.add_error e).add_all es := rfl
      rw [h, ih]
      simp [ValidationResult.add_error]

theorem fresh_add_all (errs : List String) :
    ValidationResult.add_all ⟨true, []⟩ errs = ⟨errs.isEmpty, errs⟩ := by
  simp [add_all_spec]

theorem add_all_ok (errs : List String) :
    (ValidationResult.add_all ⟨true, []⟩ errs).is_valid
      = (ValidationResult.add_all ⟨true, []⟩ errs).errors.isEmpty := by
  rw [fresh_add_all]

theorem single_ok (e : String) :
    (ValidationResult.add_error ⟨true, []⟩ e).is_valid
      = (ValidationResult.add_error ⟨true, []⟩ e).errors.isEmpty := rfl

theorem absent_ok (opt : Bool) (msg : Option String) (fp : String) :
    (absent_result opt msg fp).is_valid = (absent_result opt msg fp).errors.isEmpty := by
  unfold absent_result
  split <;> rfl

theorem ok_errors_eq_nil {r : ValidationResult} (h : r.is_valid = r.errors.isEmpty)
    (hv : r.is_valid = true) : r.errors = [] := by
  rw [hv] at h
  cases he : r.errors with
  | nil => rfl
  | cons a l => rw [he] at h; simp at h

theorem merge_child_errors (r child : ValidationResult)
    (hc : child.is_valid = child.errors.isEmpty) :
    (merge_child r child).errors = r.errors ++ child.errors := by
  unfold merge_child
  cases hv : child.is_valid with
  | false => simp
  | true => simp [ok_errors_eq_nil hc hv]

theorem merge_child_valid (r child : ValidationResult) :
    (merge_child r child).is_valid = (r.is_valid && child.is_valid) := by
  unfold merge_child
  cases hv : child.is_valid <;> simp [hv]

theorem merge_child_ok (r child : ValidationResult)
    (hr : r.is_valid = r.errors.isEmpty)
    (hc : child.is_valid = child.errors.isEmpty) :
    (merge_child r child).is_valid = (merge_child r child).errors.isEmpty := by
  rw [merge_child_valid r child, merge_child_errors r child hc, hr, hc,
    list_isEmpty_append]

theorem run_items_ok (f : Value → String → ValidationResult)
    (hf : ∀ x p, (f x p).is_valid = (f x p).errors.isEmpty) :
    ∀ (xs : List Value) (fp : String) (i : Nat) (r : ValidationResult),
      r.is_valid = r.errors.isEmpty →
      (run_items f xs fp i r).is_valid = (run_items f xs fp i r).errors.isEmpty := by
  intro xs
  induction xs with
  | nil => intro fp i r hr; simpa [run_items] using hr
  | cons x xs ih =>
      intro fp i r hr
      rw [run_items]
      exact ih fp (i + 1) _ (merge_child_ok _ _ hr (hf _ _))

mutual
theorem validate_ok (st : String → String → Bool) :
    ∀ (v : Validator) (value : Value) (field_path : String),
      (validate st v value field_path).is_valid
        = (validate st v value field_path).errors.isEmpty
  | .string o m mn mx p, value, fp => by
      cases value <;> simp only [validate] <;>
        first
        | exact absent_ok o m fp
        | exact add_all_ok _
        | exact single_ok _
  | .number o m mn mx io, value, fp => by
      cases value <;> simp only [validate] <;>
        first
        | exact absent_ok o m fp
        | (split
           · exact single_ok _
           · exact add_all_ok _)
  | .boolean o m, value, fp => by
      cases value <;> simp only [validate] <;>
        first
        | exact absent_ok o m fp
        | (split
           · exact single_ok _
           · rfl)
  | .date o m fmt, value, fp => by
      cases value <;> simp only [validate] <;>
        first
        | exact absent_ok o m fp
        | rfl
        | exact single_ok _
        | (split
           · rfl
           · exact single_ok _)
  | .array o m item mn mx, value, fp => by
      cases value <;> simp only [validate] <;>
        first
        | exact absent_ok o m fp
        | exact run_items_ok _ (fun x p => validate_ok st item x p) _ fp 0 _ (add_all_ok _)
        | exact single_ok _
  | .object o m schema strict, value, fp => by
      cases value <;> simp only [validate] <;>
        first
        | exact absent_ok o m fp
        | exact validate_fields_ok st schema _ fp _
            (by split
                · exact add_all_ok _
                · rfl)
        | exact single_ok _
theorem validate_fields_ok (st : String → String → Bool) :
    ∀ (fs : Fields) (entries : List (String × Value)) (fp : String) (r : ValidationResult),
      r.is_valid = r.errors.isEmpty →
      (validate_fields st fs entries fp r).is_valid
        = (validate_fields st fs entries fp r).errors.isEmpty
  | .nil, _, _, r, hr => by simpa [validate_fields] using hr
  | .cons name fv rest, entries, fp, r, hr => by
      rw [validate_fields]
      exact validate_fields_ok st rest entries fp _
        (merge_child_ok _ _ hr (validate_ok st fv _ _))
end

/-- C2: for every validator node of any variant and every input value and
path, the ValidationResult returned by validate satisfies
`is_valid == (errors is empty)` — including the results the array and object
validators build by merging child errors. -/
theorem c2_result_invariant (st : String → String → Bool) (v : Validator)
    (value : Value) (field_path : String) :
    (validate st v value field_path).is_valid
      = (validate st v value field_path).errors.isEmpty :=
  validate_ok st v value field_path

/-- C3: validating the absent value `None` returns, for an optional node, a
passing result with zero errors, and for a required node a failing result
with exactly the single error "Field is required" (or the node's custom
message), path-prefixed; no type or constraint check contributes anything
else. -/
theorem c3_absence_handling (st : String → String → Bool) (v : Validator)
    (field_path : String) :
    validate st v Value.none field_path
      = if v.optional_flag then ⟨true, []⟩
        else ⟨false, [create_error v.custom_message "Field is required" field_path]⟩ := by
  cases v <;>
    simp [validate, absent_result, Validator.optional_flag, Validator.custom_message,
      ValidationResult.add_error]

theorem run_items_spec (f : Value → String → ValidationResult)
    (hf : ∀ x p, (f x p).is_valid = (f x p).errors.isEmpty) :
    ∀ (xs : List Value) (fp : String) (i : Nat) (r : ValidationResult),
      r.is_valid = r.errors.isEmpty →
      run_items f xs fp i r
        = ⟨r.is_valid && (items_errors f xs fp i).isEmpty,
           r.errors ++ items_errors f xs fp i⟩ := by
  intro xs
  induction xs with
  | nil => intro fp i r hr; simp [run_items, items_errors]
  | cons x xs ih =>
      intro fp i r hr
      rw [run_items, items_errors,
        ih fp (i + 1) _ (merge_child_ok _ _ hr (hf _ _)),
        merge_child_valid _ _, merge_child_errors _ _ (hf _ _),
        hf x (item_path_of fp i), list_isEmpty_append]
      simp [Bool.and_assoc]

theorem validate_fields_spec (st : String → String → Bool) :
    ∀ (fs : Fields) (entries : List (String × Value)) (fp : String) (r : ValidationResult),
      r.is_valid = r.errors.isEmpty →
      validate_fields st fs entries fp r
        = ⟨r.is_valid && (fields_errors st fs entries fp).isEmpty,
           r.errors ++ fields_errors st fs entries fp⟩
  | .nil, entries, fp, r, hr => by simp [validate_fields, fields_errors]
  | .cons name fv rest, entries, fp, r, hr => by
      rw [validate_fields, fields_errors,
        validate_fields_spec st rest entries fp _
          (merge_child_ok _ _ hr (validate_ok st fv _ _)),
        merge_child_valid _ _,
        merge_child_errors _ _ (validate_ok st fv _ _),
        validate_ok st fv (dict_get entries name) (field_path_of fp name),
        list_isEmpty_append]
      simp [Bool.and_assoc]

theorem validate_string_eq (st : String → String → Bool) (o : Bool) (m : Option String)
    (mn mx : Option Int) (p : Option (String → Bool)) (s : String) (fp : String) :
    validate st (.string o m mn mx p) (.str s) fp
      = ⟨(string_own_errors m mn mx p s fp).isEmpty, string_own_errors m mn mx p s fp⟩ := by
  simp only [validate]
  exact fresh_add_all _

theorem validate_number_eq (st : String → String → Bool) (o : Bool) (m : Option String)
    (mn mx : Option PyNum) (io : Bool) (v : Value) (fp : String)
    (hv : isinstance_int_or_float v = true) :
    validate st (.number o m mn mx io) v fp
      = ⟨(number_own_errors m mn mx io v fp).isEmpty, number_own_errors m mn mx io v fp⟩ := by
  cases v <;> simp_all [validate, isinstance_int_or_float, fresh_add_all]

theorem validate_array_eq (st : String → String → Bool) (o : Bool) (m : Option String)
    (item : Validator) (mn mx : Option Int) (xs : List Value) (fp : String) :
    validate st (.array o m item mn mx) (.list xs) fp
      = ⟨(array_length_errors m mn mx xs.length fp).isEmpty
            && (items_errors (fun x p => validate st item x p) xs fp 0).isEmpty,
         array_length_errors m mn mx xs.length fp
            ++ items_errors (fun x p => validate st item x p) xs fp 0⟩ := by
  simp only [validate]
  rw [fresh_add_all,
    run_items_spec _ (fun x p => validate_ok st item x p) xs fp 0 _ (by rfl)]

theorem validate_object_eq (st : String → String → Bool) (o : Bool) (m : Option String)
    (schema : Fields) (strict : Bool) (entries : List (String × Value)) (fp : String) :
    validate st (.object o m schema strict) (.dict entries) fp
      = ⟨(strict_errors m schema entries strict fp).isEmpty
            && (fields_errors st schema entries fp).isEmpty,
         strict_errors m schema entries strict fp ++ fields_errors st schema entries fp⟩ := by
  simp only [validate]
  have hacc : (if strict then
        ValidationResult.add_all ⟨true, []⟩
          ((extra_fields schema entries).map fun k =>
            create_error m "Extra field not allowed in strict mode" (field_path_of fp k))
      else (⟨true, []⟩ : ValidationResult))
      = ⟨(strict_errors m schema entries strict fp).isEmpty,
         strict_errors m schema entries strict fp⟩ := by
    unfold strict_errors
    split
    · exact fresh_add_all _
    · rfl
  rw [hacc, validate_fields_spec st schema entries fp _ (by rfl)]

/-- C4: object field access appends a dot-separated field name to a
non-empty parent path and uses the bare name at the root; array element
access appends the bracketed 0-based index with no leading dot; and the
concrete nested scenario yields exactly the error rendered at path
"a.b[1]". -/
theorem c4_path_composition (st : String → String → Bool) :
    (∀ name, field_path_of "" name = name)
    ∧ (∀ p name, p ≠ "" → field_path_of p name = p ++ "." ++ name)
    ∧ (∀ i, item_path_of "" i = "[" ++ toString i ++ "]")
    ∧ (∀ p i, p ≠ "" → item_path_of p i = p ++ "[" ++ toString i ++ "]")
    ∧ validate st c4_schema c4_value "" = ⟨false, ["a.b[1]: Must be a number"]⟩ :=
  ⟨fun name => by simp [field_path_of],
   fun p name hp => by simp [field_path_of, hp],
   fun i => by simp [item_path_of],
   fun p i hp => by simp [item_path_of, hp],
   rfl⟩

/-- Witness for C4 at concrete inputs: the non-empty-parent compositions at
"a" and "a.b". -/
theorem c4_path_composition_witness :
    field_path_of "a" "b" = "a.b" ∧ item_path_of "a.b" 1 = "a.b[1]" :=
  ⟨(c4_path_composition (fun _ _ => false)).2.1 "a" "b" (by decide),
   (c4_path_composition (fun _ _ => false)).2.2.2.1 "a.b" 1 (by decide)⟩

/-- C5: for a strict-mode object validator on a dict input, the error list
is exactly one "Extra field not allowed in strict mode" error per input key
not declared in the schema, rendered at the composed path (bare key at
root), followed by — hence strictly before — all declared-field validation
errors. -/
theorem c5_strict_mode_order (st : String → String → Bool) (o : Bool) (m : Option String)
    (schema : Fields) (entries : List (String × Value)) (fp : String) :
    (validate st (.object o m schema true) (.dict entries) fp).errors
      = (extra_fields schema entries).map
          (fun k => create_error m "Extra field not allowed in strict mode" (field_path_of fp k))
        ++ fields_errors st schema entries fp := by
  rw [validate_object_eq]
  simp [strict_errors]

/-- C8: the empty list passes the array type check (an unconstrained array
validator accepts it with no errors); the error list of an array validator
on any list is the length-constraint errors followed by the item errors of
every element in index order (so length constraints are evaluated even when
element errors occur, and a failing element does not stop later elements);
and the concrete min-length-1 scenario on the empty list yields exactly the
single error "Array must have at least 1 items". -/
theorem c8_empty_array (st : String → String → Bool) (o : Bool) (m : Option String)
    (item : Validator) (mn mx : Option Int) (xs : List Value) (fp : String) :
    validate st (.array o m item Option.none Option.none) (.list []) fp = ⟨true, []⟩
    ∧ (validate st (.array o m item mn mx) (.list xs) fp).errors
        = array_length_errors m mn mx xs.length fp
          ++ items_errors (fun x p => validate st item x p) xs fp 0
    ∧ validate st ((Schema.array Schema.string).min_length 1) (.list []) ""
        = ⟨false, ["Array must have at least 1 items"]⟩ :=
  ⟨rfl, by rw [validate_array_eq], rfl⟩

theorem mem_ite_single {α : Type} {e x : α} {c : Prop} [Decidable c]
    (h : e ∈ if c then [x] else ([] : List α)) : e = x := by
  split at h <;> simp_all

theorem create_error_custom (m d p : String) (hm : m ≠ "") :
    create_error (some m) d p = if p = "" then m else p ++ ": " ++ m := by
  unfold create_error
  simp [hm]

theorem custom_shape {m d p e : String} (hm : m ≠ "") (h : e = create_error (some m) d p) :
    ∃ q, e = (if q = "" then m else q ++ ": " ++ m) := by
  refine ⟨p, ?_⟩
  rw [h, create_error_custom m d p hm]

theorem mem_absent (o : Bool) (msg : Option String) (fp : String) :
    ∀ e ∈ (absent_result o msg fp).errors, ∃ d, e = create_error msg d fp := by
  intro e he
  unfold absent_result at he
  split at he
  · simp at he
  · simp [ValidationResult.add_error] at he
    exact ⟨_, he⟩

theorem mem_string_own (msg : Option String) (mn mx : Option Int)
    (pp : Option (String → Bool)) (s fp : String) :
    ∀ e ∈ string_own_errors msg mn mx pp s fp, ∃ d, e = create_error msg d fp := by
  intro e he
  unfold string_own_errors at he
  rcases List.mem_append.mp he with he | he
  · rcases List.mem_append.mp he with he | he
    · cases mn with
      | none => simp at he
      | some n => exact ⟨_, mem_ite_single he⟩
    · cases mx with
      | none => simp at he
      | some n => exact ⟨_, mem_ite_single he⟩
  · cases pp with
    | none => simp at he
    | some p => exact ⟨_, mem_ite_single he⟩

theorem mem_number_own (msg : Option String) (mn mx : Option PyNum) (io : Bool)
    (v : Value) (fp : String) :
    ∀ e ∈ number_own_errors msg mn mx io v fp, ∃ d, e = create_error msg d fp := by
  intro e he
  unfold number_own_errors at he
  rcases List.mem_append.mp he with he | he
  · rcases List.mem_append.mp he with he | he
    · exact ⟨_, mem_ite_single he⟩
    · cases mn with
      | none => simp at he
      | some b => exact ⟨_, mem_ite_single he⟩
  · cases mx with
    | none => simp at he
    | some b => exact ⟨_, mem_ite_single he⟩

theorem mem_array_length (msg : Option String) (mn mx : Option Int) (n : Nat)
    (fp : String) :
    ∀ e ∈ array_length_errors msg mn mx n fp, ∃ d, e = create_error msg d fp := by
  intro e he
  unfold array_length_errors at he
  rcases List.mem_append.mp he with he | he
  · cases mn with
    | none => simp at he
    | some b => exact ⟨_, mem_ite_single he⟩
  · cases mx with
    | none => simp at he
    | some b => exact ⟨_, mem_ite_single he⟩

theorem mem_strict (m : Option String) (schema : Fields)
    (entries : List (String × Value)) (strict : Bool) (fp : String) :
    ∀ e ∈ strict_errors m schema entries strict fp,
      ∃ q, e = create_error m "Extra field not allowed in strict mode" q := by
  intro e he
  unfold strict_errors at he
  split at he
  · rcases List.mem_map.mp he with ⟨k, _, hk⟩
    exact ⟨_, hk.symm⟩
  · simp at he

/-- Counterexample refuting C6 as stated: with_message("") sets the custom
message (the attribute becomes the empty string, i.e. `some ""`), yet the
error the node raises for the min-length violation is the default text
"String must be at least 5 characters long", not the custom message ""
verbatim — Python's truthiness test `self._custom_message or message`
discards an empty custom message. -/
theorem c6_empty_message_counterexample :
    ((Schema.string.min_length 5).with_message "").custom_message = some ""
    ∧ (validate (fun _ _ => false) ((Schema.string.min_length 5).with_message "")
        (.str "ab") "").errors
      = ["String must be at least 5 characters long"]
    ∧ "String must be at least 5 characters long" ≠ "" :=
  ⟨rfl, rfl, by decide⟩

/-- C6 (amended): when a node carries a NON-EMPTY custom message, every
error the node itself raises in a validate call — type-check failure,
required-field failure, and every constraint violation — is the custom
message verbatim (path-rendered), and these own errors precede the child
errors; the errors bubbled up from nested child validators are exactly the
item/field errors of the children, which are unaffected by the node's
custom message.  The non-emptiness hypothesis is forced: Python's
`self._custom_message or message` treats the empty-string custom message as
unset and falls back to the default text. -/
theorem c6_custom_message (st : String → String → Bool) (v : Validator) (m : String)
    (value : Value) (fp : String) (hmsg : v.custom_message = some m) (hm : m ≠ "") :
    (∃ own : List String,
        (validate st v value fp).errors = own ++ child_errors st v value fp
        ∧ ∀ e ∈ own, ∃ q, e = (if q = "" then m else q ++ ": " ++ m))
    ∧ ∀ m2, child_errors st (v.with_message m2) value fp = child_errors st v value fp := by
  constructor
  · cases v with
    | string o msg mn mx p =>
        rw [Validator.custom_message] at hmsg
        subst hmsg
        cases value
        case none =>
          refine ⟨(absent_result o (some m) fp).errors, by simp [validate, child_errors], ?_⟩
          intro e he
          rcases mem_absent o (some m) fp e he with ⟨d, hd⟩
          exact custom_shape hm hd
        case str s =>
          refine ⟨string_own_errors (some m) mn mx p s fp, ?_, ?_⟩
          · rw [validate_string_eq]
            simp [child_errors]
          · intro e he
            rcases mem_string_own (some m) mn mx p s fp e he with ⟨d, hd⟩
            exact custom_shape hm hd
        all_goals
          refine ⟨[create_error (some m) "Must be a string" fp],
            by simp [validate, child_errors, ValidationResult.add_error], ?_⟩
        all_goals
          intro e he
          simp at he
          exact custom_shape hm he
    | number o msg mn mx io =>
        rw [Validator.custom_message] at hmsg
        subst hmsg
        cases value
        case none =>
          refine ⟨(absent_result o (some m) fp).errors, by simp [validate, child_errors], ?_⟩
          intro e he
          rcases mem_absent o (some m) fp e he with ⟨d, hd⟩
          exact custom_shape hm hd
        case bool b =>
          refine ⟨number_own_errors (some m) mn mx io (.bool b) fp, ?_, ?_⟩
          · rw [validate_number_eq st o (some m) mn mx io (.bool b) fp rfl]
            simp [child_errors]
          · intro e he
            rcases mem_number_own (some m) mn mx io (.bool b) fp e he with ⟨d, hd⟩
            exact custom_shape hm hd
        case int n =>
          refine ⟨number_own_errors (some m) mn mx io (.int n) fp, ?_, ?_⟩
          · rw [validate_number_eq st o (some m) mn mx io (.int n) fp rfl]
            simp [child_errors]
          · intro e he
            rcases mem_number_own (some m) mn mx io (.int n) fp e he with ⟨d, hd⟩
            exact custom_shape hm hd
        case float q =>
          refine ⟨number_own_errors (some m) mn mx io (.float q) fp, ?_, ?_⟩
          · rw [validate_number_eq st o (some m) mn mx io (.float q) fp rfl]
            simp [child_errors]
          · intro e he
            rcases mem_number_own (some m) mn mx io (.float q) fp e he with ⟨d, hd⟩
            exact custom_shape hm hd
        all_goals
          refine ⟨[create_error (some m) "Must be a number" fp],
            by simp [validate, child_errors, isinstance_int_or_float,
              ValidationResult.add_error], ?_⟩
        all_goals
          intro e he
          simp at he
          exact custom_shape hm he
    | boolean o msg =>
        rw [Validator.custom_message] at hmsg
        subst hmsg
        cases value
        case none =>
          refine ⟨(absent_result o (some m) fp).errors, by simp [validate, child_errors], ?_⟩
          intro e he
          rcases mem_absent o (some m) fp e he with ⟨d, hd⟩
          exact custom_shape hm hd
        case bool b =>
          exact ⟨[], by simp [validate, child_errors, isinstance_bool], by simp⟩
        all_goals
          refine ⟨[create_error (some m) "Must be a boolean" fp],
            by simp [validate, child_errors, isinstance_bool,
              ValidationResult.add_error], ?_⟩
        all_goals
          intro e he
          simp at he
          exact custom_shape hm he
    | date o msg fmt =>
        rw [Validator.custom_message] at hmsg
        subst hmsg
        cases value
        case none =>
          refine ⟨(absent_result o (some m) fp).errors, by simp [validate, child_errors], ?_⟩
          intro e he
          rcases mem_absent o (some m) fp e he with ⟨d, hd⟩
          exact custom_shape hm hd
        case datetime =>
          exact ⟨[], by simp [validate, child_errors], by simp⟩
        case str s =>
          refine ⟨if st s fmt then []
              else [create_error (some m) ("Date must be in format " ++ fmt) fp], ?_, ?_⟩
          · simp only [validate, child_errors, List.append_nil]
            split <;> simp [ValidationResult.add_error]
          · intro e he
            split at he
            · simp at he
            · simp at he
              exact custom_shape hm he
        all_goals
          refine ⟨[create_error (some m) "Must be a date or datetime string" fp],
            by simp [validate, child_errors, ValidationResult.add_error], ?_⟩
        all_goals
          intro e he
          simp at he
          exact custom_shape hm he
    | array o msg item mn mx =>
        rw [Validator.custom_message] at hmsg
        subst hmsg
        cases value
        case none =>
          refine ⟨(absent_result o (some m) fp).errors, by simp [validate, child_errors], ?_⟩
          intro e he
          rcases mem_absent o (some m) fp e he with ⟨d, hd⟩
          exact custom_shape hm hd
        case list items =>
          refine ⟨array_length_errors (some m) mn mx items.length fp, ?_, ?_⟩
          · rw [validate_array_eq]
            simp [child_errors]
          · intro e he
            rcases mem_array_length (some m) mn mx items.length fp e he with ⟨d, hd⟩
            exact custom_shape hm hd
        all_goals
          refine ⟨[create_error (some m) "Must be an array" fp],
            by simp [validate, child_errors, ValidationResult.add_error], ?_⟩
        all_goals
          intro e he
          simp at he
          exact custom_shape hm he
    | object o msg schema strict =>
        rw [Validator.custom_message] at hmsg
        subst hmsg
        cases value
        case none =>
          refine ⟨(absent_result o (some m) fp).errors, by simp [validate, child_errors], ?_⟩
          intro e he
          rcases mem_absent o (some m) fp e he with ⟨d, hd⟩
          exact custom_shape hm hd
        case dict entries =>
          refine ⟨strict_errors (some m) schema entries strict fp, ?_, ?_⟩
          · rw [validate_object_eq]
            simp [child_errors]
          · intro e he
            rcases mem_strict (some m) schema entries strict fp e he with ⟨q, hq⟩
            exact custom_shape hm hq
        all_goals
          refine ⟨[create_error (some m) "Must be an object" fp],
            by simp [validate, child_errors, ValidationResult.add_error], ?_⟩
        all_goals
          intro e he
          simp at he
          exact custom_shape hm he
  · intro m2
    cases v <;> cases value <;> rfl

/-- Witness for C6: a string validator with pattern and custom message
"Must be 5 digits" applied to "abc"; its own errors are all the custom
message. -/
theorem c6_custom_message_witness :
    ((Schema.string.pattern digits5).with_message "Must be 5 digits").custom_message
        = some "Must be 5 digits"
    ∧ (∃ own : List String,
        (validate (fun _ _ => false)
            ((Schema.string.pattern digits5).with_message "Must be 5 digits")
            (.str "abc") "").errors
          = own ++ child_errors (fun _ _ => false)
              ((Schema.string.pattern digits5).with_message "Must be 5 digits")
              (.str "abc") ""
        ∧ ∀ e ∈ own, ∃ q,
            e = (if q = "" then "Must be 5 digits" else q ++ ": " ++ "Must be 5 digits"))
    ∧ "Must be 5 digits" ≠ "" :=
  ⟨rfl,
   (c6_custom_message (fun _ _ => false)
      ((Schema.string.pattern digits5).with_message "Must be 5 digits")
      "Must be 5 digits" (.str "abc") "" rfl (by decide)).1,
   by decide⟩

theorem string_own_min_sub (m : Option String) (mx : Option Int)
    (p : Option (String → Bool)) (n : Int) (s fp : String) :
    List.Sublist (string_own_errors m Option.none mx p s fp)
      (string_own_errors m (some n) mx p s fp) := by
  unfold string_own_errors
  simp only [List.nil_append, List.append_assoc]
  exact List.sublist_append_right _ _

theorem string_own_max_sub (m : Option String) (mn : Option Int)
    (p : Option (String → Bool)) (n : Int) (s fp : String) :
    List.Sublist (string_own_errors m mn Option.none p s fp)
      (string_own_errors m mn (some n) p s fp) := by
  unfold string_own_errors
  simp only [List.append_nil, List.append_assoc]
  exact List.Sublist.append_left (List.sublist_append_right _ _) _

theorem string_own_pat_sub (m : Option String) (mn mx : Option Int)
    (p : String → Bool) (s fp : String) :
    List.Sublist (string_own_errors m mn mx Option.none s fp)
      (string_own_errors m mn mx (some p) s fp) := by
  unfold string_own_errors
  simp only [List.append_nil]
  exact List.sublist_append_left _ _

theorem number_own_min_sub (m : Option String) (mx : Option PyNum) (io : Bool)
    (b : PyNum) (v : Value) (fp : String) :
    List.Sublist (number_own_errors m Option.none mx io v fp)
      (number_own_errors m (some b) mx io v fp) := by
  unfold number_own_errors
  simp only [List.append_nil, List.nil_append, List.append_assoc]
  exact List.Sublist.append_left (List.sublist_append_right _ _) _

theorem number_own_max_sub (m : Option String) (mn : Option PyNum) (io : Bool)
    (b : PyNum) (v : Value) (fp : String) :
    List.Sublist (number_own_errors m mn Option.none io v fp)
      (number_own_errors m mn (some b) io v fp) := by
  unfold number_own_errors
  simp only [List.append_nil]
  exact List.sublist_append_left _ _

theorem number_own_int_sub (m : Option String) (mn mx : Option PyNum)
    (v : Value) (fp : String) :
    List.Sublist (number_own_errors m mn mx false v fp)
      (number_own_errors m mn mx true v fp) := by
  unfold number_own_errors
  simp only [Bool.false_and, Bool.false_eq_true, if_false, List.nil_append,
    List.append_assoc]
  exact List.sublist_append_right _ _

theorem array_length_min_sub (m : Option String) (mx : Option Int) (n : Int)
    (len : Nat) (fp : String) :
    List.Sublist (array_length_errors m Option.none mx len fp)
      (array_length_errors m (some n) mx len fp) := by
  unfold array_length_errors
  simp only [List.nil_append]
  exact List.sublist_append_right _ _

theorem array_length_max_sub (m : Option String) (mn : Option Int) (n : Int)
    (len : Nat) (fp : String) :
    List.Sublist (array_length_errors m mn Option.none len fp)
      (array_length_errors m mn (some n) len fp) := by
  unfold array_length_errors
  simp only [List.append_nil]
  exact List.sublist_append_left _ _

theorem string_sub_helper (st : String → String → Bool) (o : Bool) (m : Option String)
    (mn₁ mx₁ : Option Int) (p₁ : Option (String → Bool))
    (mn₂ mx₂ : Option Int) (p₂ : Option (String → Bool)) (value : Value) (fp : String)
    (h : ∀ s, List.Sublist (string_own_errors m mn₁ mx₁ p₁ s fp)
          (string_own_errors m mn₂ mx₂ p₂ s fp)) :
    List.Sublist (validate st (.string o m mn₁ mx₁ p₁) value fp).errors
      (validate st (.string o m mn₂ mx₂ p₂) value fp).errors := by
  cases value
  case str s =>
    rw [validate_string_eq, validate_string_eq]
    exact h s
  all_goals
    simp only [validate]
    exact List.Sublist.refl _

theorem number_sub_helper (st : String → String → Bool) (o : Bool) (m : Option String)
    (mn₁ mx₁ : Option PyNum) (io₁ : Bool) (mn₂ mx₂ : Option PyNum) (io₂ : Bool)
    (value : Value) (fp : String)
    (h : ∀ v, List.Sublist (number_own_errors m mn₁ mx₁ io₁ v fp)
          (number_own_errors m mn₂ mx₂ io₂ v fp)) :
    List.Sublist (validate st (.number o m mn₁ mx₁ io₁) value fp).errors
      (validate st (.number o m mn₂ mx₂ io₂) value fp).errors := by
  cases value
  case none =>
    simp only [validate]
    exact List.Sublist.refl _
  case bool b =>
    rw [validate_number_eq st o m mn₁ mx₁ io₁ (.bool b) fp rfl,
      validate_number_eq st o m mn₂ mx₂ io₂ (.bool b) fp rfl]
    exact h _
  case int n =>
    rw [validate_number_eq st o m mn₁ mx₁ io₁ (.int n) fp rfl,
      validate_number_eq st o m mn₂ mx₂ io₂ (.int n) fp rfl]
    exact h _
  case float q =>
    rw [validate_number_eq st o m mn₁ mx₁ io₁ (.float q) fp rfl,
      validate_number_eq st o m mn₂ mx₂ io₂ (.float q) fp rfl]
    exact h _
  all_goals
    simp only [validate, isinstance_int_or_float, Bool.not_false, if_true]
    exact List.Sublist.refl _

theorem array_sub_helper (st : String → String → Bool) (o : Bool) (m : Option String)
    (item : Validator) (mn₁ mx₁ mn₂ mx₂ : Option Int) (value : Value) (fp : String)
    (h : ∀ n, List.Sublist (array_length_errors m mn₁ mx₁ n fp)
          (array_length_errors m mn₂ mx₂ n fp)) :
    List.Sublist (validate st (.array o m item mn₁ mx₁) value fp).errors
      (validate st (.array o m item mn₂ mx₂) value fp).errors := by
  cases value
  case list xs =>
    rw [validate_array_eq, validate_array_eq]
    exact (h xs.length).append (List.Sublist.refl _)
  all_goals
    simp only [validate]
    exact List.Sublist.refl _

/-- C7: once the type check passes every applicable constraint is evaluated
and every violation reported: setting a previously-unset constraint on a
string, number or array validator (min/max length, pattern, min/max value,
integer-only) never removes an error from the result on any fixed input —
the old error list is a sublist of the new one — and the concrete string
violating both min-length and pattern reports both errors. -/
theorem c7_monotonic_accumulation (st : String → String → Bool) :
    (∀ (o : Bool) (m : Option String) (mx : Option Int) (p : Option (String → Bool))
        (n : Int) (value : Value) (fp : String),
        List.Sublist (validate st (.string o m Option.none mx p) value fp).errors
          (validate st ((Validator.string o m Option.none mx p).min_length n) value fp).errors)
    ∧ (∀ (o : Bool) (m : Option String) (mn : Option Int) (p : Option (String → Bool))
        (n : Int) (value : Value) (fp : String),
        List.Sublist (validate st (.string o m mn Option.none p) value fp).errors
          (validate st ((Validator.string o m mn Option.none p).max_length n) value fp).errors)
    ∧ (∀ (o : Bool) (m : Option String) (mn mx : Option Int) (p : String → Bool)
        (value : Value) (fp : String),
        List.Sublist (validate st (.string o m mn mx Option.none) value fp).errors
          (validate st ((Validator.string o m mn mx Option.none).pattern p) value fp).errors)
    ∧ (∀ (o : Bool) (m : Option String) (mx : Option PyNum) (io : Bool) (b : PyNum)
        (value : Value) (fp : String),
        List.Sublist (validate st (.number o m Option.none mx io) value fp).errors
          (validate st ((Validator.number o m Option.none mx io).min_value b) value fp).errors)
    ∧ (∀ (o : Bool) (m : Option String) (mn : Option PyNum) (io : Bool) (b : PyNum)
        (value : Value) (fp : String),
        List.Sublist (validate st (.number o m mn Option.none io) value fp).errors
          (validate st ((Validator.number o m mn Option.none io).max_value b) value fp).errors)
    ∧ (∀ (o : Bool) (m : Option String) (mn mx : Option PyNum) (value : Value) (fp : String),
        List.Sublist (validate st (.number o m mn mx false) value fp).errors
          (validate st ((Validator.number o m mn mx false).integer) value fp).errors)
    ∧ (∀ (o : Bool) (m : Option String) (item : Validator) (mx : Option Int) (n : Int)
        (value : Value) (fp : String),
        List.Sublist (validate st (.array o m item Option.none mx) value fp).errors
          (validate st ((Validator.array o m item Option.none mx).min_length n) value fp).errors)
    ∧ (∀ (o : Bool) (m : Option String) (item : Validator) (mn : Option Int) (n : Int)
        (value : Value) (fp : String),
        List.Sublist (validate st (.array o m item mn Option.none) value fp).errors
          (validate st ((Validator.array o m item mn Option.none).max_length n) value fp).errors)
    ∧ validate st ((Schema.string.min_length 5).pattern digits5) (.str "ab") ""
        = ⟨false, ["String must be at least 5 characters long",
                   "String does not match required pattern"]⟩ :=
  ⟨fun o m mx p n value fp =>
    string_sub_helper st o m Option.none mx p (some n) mx p value fp
      (fun s => string_own_min_sub m mx p n s fp),
   fun o m mn p n value fp =>
    string_sub_helper st o m mn Option.none p mn (some n) p value fp
      (fun s => string_own_max_sub m mn p n s fp),
   fun o m mn mx p value fp =>
    string_sub_helper st o m mn mx Option.none mn mx (some p) value fp
      (fun s => string_own_pat_sub m mn mx p s fp),
   fun o m mx io b value fp =>
    number_sub_helper st o m Option.none mx io (some b) mx io value fp
      (fun v => number_own_min_sub m mx io b v fp),
   fun o m mn io b value fp =>
    number_sub_helper st o m mn Option.none io mn (some b) io value fp
      (fun v => number_own_max_sub m mn io b v fp),
   fun o m mn mx value fp =>
    number_sub_helper st o m mn mx false mn mx true value fp
      (fun v => number_own_int_sub m mn mx v fp),
   fun o m item mx n value fp =>
    array_sub_helper st o m item Option.none mx (some n) mx value fp
      (fun len => array_length_min_sub m mx n len fp),
   fun o m item mn n value fp =>
    array_sub_helper st o m item mn Option.none mn (some n) value fp
      (fun len => array_length_max_sub m mn n len fp),
   rfl⟩

theorem dict_get_absent {entries : List (String × Value)} {k : String}
    (h : ¬ k ∈ entries.map Prod.fst) : dict_get entries k = Value.none := by
  unfold dict_get
  have hf : List.find? (fun e => e.1 == k) entries = Option.none := by
    rw [List.find?_eq_none]
    intro x hx hbeq
    exact h (List.mem_map.mpr ⟨x, hx, by simpa using hbeq⟩)
  rw [hf]

theorem dict_get_insert (l₁ l₂ : List (String × Value)) (k : String)
    (habs : ¬ k ∈ (l₁ ++ l₂).map Prod.fst) (name : String) :
    dict_get (l₁ ++ (k, Value.none) :: l₂) name = dict_get (l₁ ++ l₂) name := by
  by_cases hk : name = k
  · subst hk
    rw [dict_get_absent habs]
    unfold dict_get
    rw [List.find?_append]
    have h₁ : List.find? (fun e => e.1 == name) l₁ = Option.none := by
      rw [List.find?_eq_none]
      intro x hx hbeq
      apply habs
      rw [List.map_append]
      exact List.mem_append.mpr (Or.inl (List.mem_map.mpr ⟨x, hx, by simpa using hbeq⟩))
    rw [h₁, Option.none_or, List.find?_cons_of_pos _ (by simp)]
  · unfold dict_get
    rw [List.find?_append, List.find?_append]
    have hmid : List.find? (fun e => e.1 == name) ((k, Value.none) :: l₂)
        = List.find? (fun e => e.1 == name) l₂ := by
      rw [List.find?_cons_of_neg]
      simp only [beq_iff_eq]
      exact fun h => hk h.symm
    rw [hmid]

theorem fields_errors_congr (st : String → String → Bool) :
    ∀ (fs : Fields) (e₁ e₂ : List (String × Value)) (fp : String),
      (∀ name, dict_get e₁ name = dict_get e₂ name) →
      fields_errors st fs e₁ fp = fields_errors st fs e₂ fp
  | .nil, _, _, _, _ => rfl
  | .cons name fv rest, e₁, e₂, fp, h => by
      rw [fields_errors, fields_errors, h name,
        fields_errors_congr st rest e₁ e₂ fp h]

theorem extra_fields_insert (schema : Fields) (l₁ l₂ : List (String × Value)) (k : String)
    (hdecl : k ∈ schema.keys) :
    extra_fields schema (l₁ ++ (k, Value.none) :: l₂) = extra_fields schema (l₁ ++ l₂) := by
  unfold extra_fields
  rw [List.map_append, List.map_append, List.filter_append, List.filter_append,
    List.map_cons, List.filter_cons]
  simp [hdecl]

/-- C9: for an object validator, a declared key that is missing from the
input dict is indistinguishable from the same key explicitly present with
value None: `dict.get` hands the child validator None in both cases and the
whole validate result is identical, so both pass iff the child is optional
and both yield the single required-field error iff it is not. -/
theorem c9_missing_key_is_none (st : String → String → Bool) (o : Bool)
    (m : Option String) (schema : Fields) (strict : Bool)
    (l₁ l₂ : List (String × Value)) (k : String) (fp : String)
    (hdecl : k ∈ schema.keys)
    (habs : ¬ k ∈ (l₁ ++ l₂).map Prod.fst) :
    dict_get (l₁ ++ (k, Value.none) :: l₂) k = Value.none
    ∧ dict_get (l₁ ++ l₂) k = Value.none
    ∧ validate st (.object o m schema strict) (.dict (l₁ ++ (k, Value.none) :: l₂)) fp
        = validate st (.object o m schema strict) (.dict (l₁ ++ l₂)) fp := by
  refine ⟨?_, dict_get_absent habs, ?_⟩
  · rw [dict_get_insert l₁ l₂ k habs k]
    exact dict_get_absent habs
  · rw [validate_object_eq, validate_object_eq,
      fields_errors_congr st schema _ _ fp (dict_get_insert l₁ l₂ k habs)]
    unfold strict_errors
    rw [extra_fields_insert schema l₁ l₂ k hdecl]

/-- Witness for C9: schema with declared fields "name" and optional "age";
the input with "age" missing validates identically to the input with "age"
explicitly None. -/
theorem c9_missing_key_witness :
    dict_get ([("name", Value.str "John")] ++ ("age", Value.none) :: []) "age" = Value.none
    ∧ dict_get ([("name", Value.str "John")] ++ []) "age" = Value.none
    ∧ validate (fun _ _ => false)
        (.object false Option.none
          (.cons "name" Schema.string (.cons "age" Schema.number.optional .nil)) false)
        (.dict ([("name", Value.str "John")] ++ ("age", Value.none) :: [])) ""
      = validate (fun _ _ => false)
        (.object false Option.none
          (.cons "name" Schema.string (.cons "age" Schema.number.optional .nil)) false)
        (.dict ([("name", Value.str "John")] ++ [])) "" :=
  c9_missing_key_is_none (fun _ _ => false) false Option.none
    (.cons "name" Schema.string (.cons "age" Schema.number.optional .nil)) false
    [("name", Value.str "John")] [] "age" "" (by simp [Fields.keys]) (by simp)

/-- C10: the compiled pattern is applied with re.match, which anchors only
at the start of the input: whenever the regex matches a prefix of the
string, the pattern check passes — the validator behaves exactly as if no
pattern were configured, and with no other constraints it returns a passing
result, even when a non-matching suffix follows. -/
theorem c10_pattern_prefix_anchored (st : String → String → Bool) (o : Bool)
    (m : Option String) (mn mx : Option Int) (pat : String → Bool) (s fp : String)
    (hmatch : re_match pat s = true) :
    validate st (.string o m mn mx (some pat)) (.str s) fp
      = validate st (.string o m mn mx Option.none) (.str s) fp
    ∧ validate st (.string o m Option.none Option.none (some pat)) (.str s) fp
      = ⟨true, []⟩ := by
  constructor
  · rw [validate_string_eq, validate_string_eq]
    unfold string_own_errors
    simp [hmatch]
  · rw [validate_string_eq]
    unfold string_own_errors
    simp [hmatch]

/-- Witness for C10: the unanchored five-digit pattern matches the prefix
"12345" of "12345abc", so validation reports no pattern error at all. -/
theorem c10_pattern_witness :
    re_match digits5 "12345abc" = true
    ∧ validate (fun _ _ => false)
        (.string false Option.none Option.none Option.none (some digits5))
        (.str "12345abc") "" = ⟨true, []⟩ :=
  ⟨by decide,
   (c10_pattern_prefix_anchored (fun _ _ => false) false Option.none Option.none Option.none
      digits5 "12345abc" "" (by decide)).2⟩

/-- C1 (code bug): the spec demands that a boolean input always fail the
NumberValidator type check with "Must be a number", but in Python `bool` is
a subclass of `int`, so `isinstance(value, (int, float))` accepts `True` and
`False`: an unconstrained `Schema.number()` validates a boolean with a
passing, error-free result — no "Must be a number" error is ever raised
for a boolean. -/
theorem c1_boolean_accepted_as_number (st : String → String → Bool) (b : Bool)
    (field_path : String) :
    validate st Schema.number (.bool b) field_path = ⟨true, []⟩ := rfl

end Task8
